import Mathlib

/-!
Shallow embedding of the `FB_chatbot_rag` retrieval pipeline
(`preprocessing.py` and `app.py`), with theorems checking its
natural-language specification against the code.

Conventions used throughout:
* Python functions become total Lean functions; a Python `try/except`
  around an external call is modelled by taking the outcome of that call
  as an `Except String _` argument and matching on it, exactly where the
  source catches.
* Python `raise` inside modelled code becomes an `Except.error` result.
* Logging (`print`, `st.error`) is a side effect with no data content and
  is not modelled; the returned values are.
-/

instance {ε α : Type} [DecidableEq ε] [DecidableEq α] : DecidableEq (Except ε α) := fun x y =>
  match x, y with
  | Except.ok a, Except.ok b =>
    if h : a = b then isTrue (by rw [h]) else isFalse (fun he => h (Except.ok.inj he))
  | Except.error a, Except.error b =>
    if h : a = b then isTrue (by rw [h]) else isFalse (fun he => h (Except.error.inj he))
  | Except.ok _, Except.error _ => isFalse (fun he => Except.noConfusion he)
  | Except.error _, Except.ok _ => isFalse (fun he => Except.noConfusion he)

/-- Model of Python `str.split()` on the character list of the string:
the maximal runs of non-whitespace characters, in order
(`preprocessing.py` line 73, `words = text.split()`). -/
def pyTokens : List Char → List (List Char)
  | [] => []
  | [c] => if c.isWhitespace then [] else [[c]]
  | c :: c2 :: cs =>
    if c.isWhitespace then
      pyTokens (c2 :: cs)
    else if c2.isWhitespace then
      [c] :: pyTokens (c2 :: cs)
    else
      match pyTokens (c2 :: cs) with
      | [] => [[c]]
      | t :: ts => (c :: t) :: ts

/-- Python `text.split()` as a function on strings. -/
def pySplit (text : String) : List String :=
  (pyTokens text.toList).map String.mk

/-- Python `sep.join(xs)` (the single-space join of `preprocessing.py`
line 77 and the blank-line join of `app.py` line 129). -/
def pyJoin (sep : String) : List String → String
  | [] => ""
  | [x] => x
  | x :: xs => x ++ sep ++ pyJoin sep xs

/-- Python `str.strip()` on a character list: drop leading and trailing
whitespace. -/
def stripChars (cs : List Char) : List Char :=
  ((cs.dropWhile Char.isWhitespace).reverse.dropWhile Char.isWhitespace).reverse

/-- Python `str.strip()` on strings (`preprocessing.py` line 78,
`chunk.strip()`). -/
def pyStrip (s : String) : String :=
  String.mk (stripChars s.toList)

/-- Python `range(0, stop, step)` for positive `step`: the numbers
`0, step, 2*step, ...` below `stop`; there are `ceil(stop/step)` of them
(`preprocessing.py` line 76). -/
def pyRangeUp (stop step : Nat) : List Nat :=
  (List.range ((stop + step - 1) / step)).map (fun k => k * step)

/-- The word windows produced by the loop of
`DocumentProcessor.chunk_text` (`preprocessing.py` lines 76-77):
`words[i : i + chunk_size]` for `i in range(0, len(words), chunk_size - overlap)`.
Only used on the branch where `overlap < chunk_size`. -/
def wordChunks (words : List String) (chunk_size overlap : Nat) : List (List String) :=
  (pyRangeUp words.length (chunk_size - overlap)).map
    (fun i => (words.drop i).take chunk_size)

/-- `DocumentProcessor.chunk_text` (`preprocessing.py` lines 71-81).
Python semantics of the loop header `range(0, len(words), chunk_size - overlap)`:
a zero step (`overlap = chunk_size`) raises `ValueError` before any chunk is
produced; a negative step (`overlap > chunk_size`) makes the range empty, so
the empty chunk list is returned; a positive step walks the word windows.
Each window is joined with single spaces and appended when its `strip()` is
non-empty (lines 77-79). -/
def chunk_text (text : String) (chunk_size overlap : Nat) : Except String (List String) :=
  let words := pySplit text
  if chunk_size = overlap then
    Except.error "ValueError: range() arg 3 must not be zero"
  else if chunk_size < overlap then
    Except.ok []
  else
    Except.ok (((wordChunks words chunk_size overlap).map (fun ws => pyJoin " " ws)).filter
      (fun c => pyStrip c ≠ ""))

/-! ## Retrieval and session model (`app.py`) -/

/-- One nearest-neighbour hit as zipped in `retrieve_context`
(`app.py` line 125): a retrieved chunk text paired with its `source`
metadata value (both ingestion paths always store a `source` key, so the
`metadata.get` fallback to the Unknown label never fires). -/
structure Hit where
  doc : String
  source : String
deriving DecidableEq

/-- The body of `retrieve_context` (`app.py` lines 121-129) on the list of
hits returned by the vector store, in descending-similarity order: the texts
joined with a blank line, and the `source` names collected into a Python
`set` then listed.  Python set iteration order is unspecified; the model
fixes one duplicate-free listing (`List.dedup`), and theorems use only its
set of elements and duplicate-freeness. -/
def retrieve_context (hits : List Hit) : String × List String :=
  (pyJoin "\n\n" (hits.map (fun h => h.doc)),
   (hits.map (fun h => h.source)).dedup)

/-- `retrieve_context` including its `try/except` (`app.py` lines 113-132):
the embedding plus vector-store query outcome is the argument; any raised
error is caught, displayed, and converted into `("", [])`. -/
def retrieve_context_run (result : Except String (List Hit)) : String × List String :=
  match result with
  | Except.ok hits => retrieve_context hits
  | Except.error _ => ("", [])

/-- `generate_response` (`app.py` lines 134-166).  The prompt is built from
the query and context and sent to the chat-completion service; the outcome
of that external call is the `completion` argument.  On success the single
completion text is returned; on any exception the function returns the
error message string instead of raising (lines 165-166). -/
def generate_response (query context : String) (completion : Except String String) : String :=
  match completion with
  | Except.ok content => content
  | Except.error e => "Response generation error: " ++ e

/-- One conversation entry of `st.session_state.messages`
(`app.py` lines 298 and 325-329). -/
structure Message where
  role : String
  content : String
  sources : List String
deriving DecidableEq

/-- The fixed reply used when retrieval yields no context
(`app.py` line 310). -/
def noContextMsg : String :=
  "I couldn\x27t find relevant information in the notes to answer this question."

/-- One user turn of `main` (`app.py` lines 296-329): append the user
message, retrieve, branch on empty context (line 309), generate only on the
non-empty branch, and append the assistant message with its sources.
Returns the new history and whether the answer generator was invoked. -/
def chatTurn (history : List Message) (prompt : String)
    (retrieval : Except String (List Hit)) (completion : Except String String) :
    List Message × Bool :=
  let history1 := history ++ [{ role := "user", content := prompt, sources := [] }]
  let res := retrieve_context_run retrieval
  if res.1 = "" then
    (history1 ++ [{ role := "assistant", content := noContextMsg, sources := [] }], false)
  else
    let response := generate_response prompt res.1 completion
    (history1 ++ [{ role := "assistant", content := response, sources := res.2 }], true)

/-! ## Vector store and the two ingestion paths -/

/-- A persisted vector-store record: id, chunk text, `source` metadata
(embedding vector and remaining metadata carry no weight in the claims and
are omitted). -/
structure VRecord where
  id : String
  doc : String
  source : String
deriving DecidableEq

/-- Modelled from the spec: the vector-store backend (`chromadb`
`collection.add`) is external to `src/`; per the spec the backend default on
a duplicate id is upsert-on-duplicate-id, so adding a record whose id is
present replaces every record carrying that id, and a fresh id is
appended. -/
def addRecord (col : List VRecord) (r : VRecord) : List VRecord :=
  if r.id ∈ col.map VRecord.id then
    col.map (fun x => if x.id = r.id then r else x)
  else
    col ++ [r]

/-- Adding a batch of records one after the other. -/
def addRecords (col : List VRecord) (rs : List VRecord) : List VRecord :=
  rs.foldl addRecord col

/-- The records prepared for one document by
`DocumentProcessor.process_documents` (`preprocessing.py` lines 117-124):
one record per chunk, with `source` set to the file name and a fresh
`uuid.uuid4()` id per record.  The ids are random; the model takes them as
an argument. -/
def batchRecords (name : String) (chunks ids : List String) : List VRecord :=
  (ids.zip chunks).map (fun p => { id := p.1, doc := p.2, source := name })

/-- One batch ingestion of a document into the collection
(`preprocessing.py` lines 117-140). -/
def ingestBatch (col : List VRecord) (name : String) (chunks ids : List String) :
    List VRecord :=
  addRecords col (batchRecords name chunks ids)

/-- The records added for one uploaded file by `process_uploaded_file`
(`app.py` lines 90-98): deterministic ids `f"{uploaded_file.name}_{i}"`. -/
def uploadRecords (name : String) (chunks : List String) : List VRecord :=
  chunks.enum.map (fun p => { id := name ++ "_" ++ toString p.1, doc := p.2, source := name })

/-- The add loop of the single-file upload path (`app.py` lines 90-98). -/
def ingestUpload (col : List VRecord) (name : String) (chunks : List String) :
    List VRecord :=
  addRecords col (uploadRecords name chunks)

/-- Number of records attributable to one source document. -/
def countSource (col : List VRecord) (name : String) : Nat :=
  (col.filter (fun r => r.source = name)).length

/-! ## Upload control flow and the temporary file (`app.py` lines 62-108) -/

/-- The file kind dispatched on in `process_uploaded_file`
(`app.py` lines 71-77). -/
inductive UploadKind
  | pdf
  | txt
  | other
deriving DecidableEq

/-- Which of the fallible steps of `process_uploaded_file` succeed in one
invocation: writing the upload into the temporary file (up to the
assignment of `tmp_file_path`, line 68), `loader.load()` (line 80), and the
split/embed/`collection.add` loop (lines 82-98). -/
structure UploadRun where
  writeOk : Bool
  loadOk : Bool
  addOk : Bool
deriving DecidableEq

/-- Observable outcome of `process_uploaded_file`: the success flag it
returns, whether `tmp_file_path` was assigned, and whether the temporary
file still exists after the call. -/
structure UploadOutcome where
  success : Bool
  assigned : Bool
  tmpExists : Bool
deriving DecidableEq

/-- Control-flow and file-system model of `process_uploaded_file`
(`app.py` lines 62-108).  The data payload is covered by `ingestUpload`;
here only the branching and every `os.unlink(tmp_file_path)` call are
modelled.  If the temporary-file write raises before `tmp_file_path` is
assigned, the `except` block (lines 105-108) finds no `tmp_file_path` in
`locals()` and the already-created file persists; on every other path the
function unlinks the file before returning (lines 76, 101, 107). -/
def process_uploaded_file (kind : UploadKind) (run : UploadRun) : UploadOutcome :=
  if run.writeOk = false then
    { success := false, assigned := false, tmpExists := true }
  else if kind = UploadKind.other then
    { success := false, assigned := true, tmpExists := false }
  else if run.loadOk = false then
    { success := false, assigned := true, tmpExists := false }
  else if run.addOk = false then
    { success := false, assigned := true, tmpExists := false }
  else
    { success := true, assigned := true, tmpExists := false }

/-! ## Batch ingestion file walk (`preprocessing.py` lines 48-124) -/

/-- A source file as seen by `process_documents`: a PDF whose page texts
are produced by the external reader (an error models a raised exception for
an unreadable or corrupt file), or an image whose text is produced by the
external OCR call. -/
inductive SrcFile
  | pdf (name : String) (pages : Except String (List String))
  | image (name : String) (ocr : Except String String)

/-- The file name of a source file. -/
def srcName : SrcFile → String
  | SrcFile.pdf n _ => n
  | SrcFile.image n _ => n

/-- Whether the file takes the PDF branch (`preprocessing.py` line 103). -/
def isPdfFile : SrcFile → Bool
  | SrcFile.pdf _ _ => true
  | SrcFile.image _ _ => false

/-- `DocumentProcessor.extract_text_from_pdf` (`preprocessing.py` lines
48-58): concatenate the page texts, each followed by a newline, and strip;
any exception is caught, logged, and turned into the empty string. -/
def extract_text_from_pdf (pages : Except String (List String)) : String :=
  match pages with
  | Except.ok ps => pyStrip (String.join (ps.map (fun p => p ++ "\n")))
  | Except.error _ => ""

/-- `DocumentProcessor.extract_text_from_image` (`preprocessing.py` lines
60-69): the OCR text stripped; any exception is caught, logged, and turned
into the empty string. -/
def extract_text_from_image (ocr : Except String String) : String :=
  match ocr with
  | Except.ok t => pyStrip t
  | Except.error _ => ""

/-- Text extraction dispatch of `process_documents`
(`preprocessing.py` lines 103-106). -/
def extractText : SrcFile → String
  | SrcFile.pdf _ pages => extract_text_from_pdf pages
  | SrcFile.image _ ocr => extract_text_from_image ocr

/-- One prepared chunk record of `process_documents`
(`preprocessing.py` lines 117-123): chunk text, `source` file name,
`chunk_id` ordinal, and `type` tag. -/
structure ChunkRecord where
  text : String
  source : String
  chunkId : Nat
  kind : String
deriving DecidableEq

/-- The records contributed by one file in the `process_documents` walk
(`preprocessing.py` lines 99-124): extract text, skip the file when the
text is empty (lines 108-110), otherwise chunk with the default
configuration (500, 50) and enumerate. -/
def processFile (f : SrcFile) : List ChunkRecord :=
  let text := extractText f
  if text = "" then []
  else
    match chunk_text text 500 50 with
    | Except.ok chunks =>
      chunks.enum.map (fun p =>
        { text := p.2, source := srcName f, chunkId := p.1,
          kind := if isPdfFile f then "pdf" else "image" })
    | Except.error _ => []

/-- `DocumentProcessor.process_documents` restricted to its data content:
the concatenation of every file contribution, in file order
(`preprocessing.py` lines 83-124). -/
def process_documents (files : List SrcFile) : List ChunkRecord :=
  files.flatMap processFile

/-- Formalization of the claim phrase "shares exactly O words with its
predecessor" for consecutive chunks: the successor has at least `O` words
and its first `O` words are precisely the last `O` words of its
predecessor. -/
def sharesExactlyWords (prev next : List String) (overlap : Nat) : Prop :=
  overlap ≤ next.length ∧ overlap ≤ prev.length
    ∧ next.take overlap = prev.drop (prev.length - overlap)

/-! ## Vector-store helper lemmas -/

theorem addRecord_fresh (col : List VRecord) (r : VRecord)
    (h : r.id ∉ col.map VRecord.id) : addRecord col r = col ++ [r] := by
  unfold addRecord
  rw [if_neg h]

theorem addRecords_fresh (rs : List VRecord) : ∀ col : List VRecord,
    (rs.map VRecord.id).Nodup →
    (∀ i ∈ rs.map VRecord.id, i ∉ col.map VRecord.id) →
    addRecords col rs = col ++ rs := by
  induction rs with
  | nil => intro col _ _; simp [addRecords]
  | cons r rest ih =>
    intro col hn hf
    have h1 : r.id ∉ col.map VRecord.id := hf r.id (by simp)
    have hn2 : (rest.map VRecord.id).Nodup := by
      simp only [List.map_cons, List.nodup_cons] at hn
      exact hn.2
    have hr : r.id ∉ rest.map VRecord.id := by
      simp only [List.map_cons, List.nodup_cons] at hn
      exact hn.1
    have hf2 : ∀ i ∈ rest.map VRecord.id, i ∉ (col ++ [r]).map VRecord.id := by
      intro i hi hmem
      rw [List.map_append] at hmem
      rcases List.mem_append.mp hmem with h2 | h2
      · exact hf i (by simp [hi]) h2
      · have he : i = r.id := by simpa using h2
        exact hr (he ▸ hi)
    calc addRecords col (r :: rest) = addRecords (addRecord col r) rest := rfl
      _ = addRecords (col ++ [r]) rest := by rw [addRecord_fresh col r h1]
      _ = (col ++ [r]) ++ rest := ih (col ++ [r]) hn2 hf2
      _ = col ++ r :: rest := by simp

theorem countSource_append (l1 l2 : List VRecord) (name : String) :
    countSource (l1 ++ l2) name = countSource l1 name + countSource l2 name := by
  simp [countSource, List.filter_append]

theorem batchRecords_ids (name : String) (chunks ids : List String)
    (h : ids.length = chunks.length) :
    (batchRecords name chunks ids).map VRecord.id = ids := by
  unfold batchRecords
  rw [List.map_map]
  have he : (VRecord.id ∘ fun p : String × String =>
      ({ id := p.1, doc := p.2, source := name } : VRecord)) = Prod.fst := rfl
  rw [he]
  exact List.map_fst_zip ids chunks (le_of_eq h)

theorem countSource_batchRecords (name : String) (chunks ids : List String)
    (h : ids.length = chunks.length) :
    countSource (batchRecords name chunks ids) name = chunks.length := by
  unfold countSource batchRecords
  rw [List.filter_eq_self.mpr]
  · simp [h]
  · intro a ha
    simp only [List.mem_map] at ha
    obtain ⟨p, _, rfl⟩ := ha
    simp

theorem id_mem_addRecord (col : List VRecord) (r : VRecord) (i : String)
    (h : i ∈ col.map VRecord.id) : i ∈ (addRecord col r).map VRecord.id := by
  unfold addRecord
  by_cases hc : r.id ∈ col.map VRecord.id
  · rw [if_pos hc]
    obtain ⟨x, hx, hxi⟩ := List.mem_map.mp h
    apply List.mem_map.mpr
    refine ⟨if x.id = r.id then r else x, List.mem_map_of_mem _ hx, ?_⟩
    by_cases hxr : x.id = r.id
    · rw [if_pos hxr, ← hxr, hxi]
    · rw [if_neg hxr]
      exact hxi
  · rw [if_neg hc, List.map_append]
    exact List.mem_append_left _ h

theorem id_self_mem_addRecord (col : List VRecord) (r : VRecord) :
    r.id ∈ (addRecord col r).map VRecord.id := by
  unfold addRecord
  by_cases hc : r.id ∈ col.map VRecord.id
  · rw [if_pos hc]
    obtain ⟨x, hx, hxi⟩ := List.mem_map.mp hc
    apply List.mem_map.mpr
    exact ⟨if x.id = r.id then r else x, List.mem_map_of_mem _ hx, by rw [if_pos hxi]⟩
  · rw [if_neg hc, List.map_append]
    simp

theorem id_mem_addRecords (rs : List VRecord) : ∀ (col : List VRecord) (i : String),
    i ∈ col.map VRecord.id → i ∈ (addRecords col rs).map VRecord.id := by
  induction rs with
  | nil => intro col i h; exact h
  | cons s rest ih =>
    intro col i h
    exact ih (addRecord col s) i (id_mem_addRecord col s i h)

theorem ids_mem_after_addRecords (rs : List VRecord) : ∀ col : List VRecord, ∀ r ∈ rs,
    r.id ∈ (addRecords col rs).map VRecord.id := by
  induction rs with
  | nil => intro col r hr; cases hr
  | cons s rest ih =>
    intro col r hr
    rcases List.mem_cons.mp hr with he | hm
    · subst he
      exact id_mem_addRecords rest (addRecord col r) r.id (id_self_mem_addRecord col r)
    · exact ih (addRecord col s) r hm

theorem length_addRecord_of_mem (col : List VRecord) (r : VRecord)
    (h : r.id ∈ col.map VRecord.id) : (addRecord col r).length = col.length := by
  unfold addRecord
  rw [if_pos h, List.length_map]

theorem length_addRecords_covered (rs : List VRecord) : ∀ col : List VRecord,
    (∀ r ∈ rs, r.id ∈ col.map VRecord.id) →
    (addRecords col rs).length = col.length := by
  induction rs with
  | nil => intro col _; rfl
  | cons s rest ih =>
    intro col h
    calc (addRecords col (s :: rest)).length
        = (addRecords (addRecord col s) rest).length := rfl
      _ = (addRecord col s).length := by
          apply ih
          intro r hr
          exact id_mem_addRecord col s r.id (h r (List.mem_cons_of_mem _ hr))
      _ = col.length := length_addRecord_of_mem col s (h s (List.mem_cons_self _ _))

theorem ingestUpload_twice_length (col : List VRecord) (name : String)
    (chunks : List String) :
    (ingestUpload (ingestUpload col name chunks) name chunks).length
      = (ingestUpload col name chunks).length := by
  apply length_addRecords_covered
  intro r hr
  exact ids_mem_after_addRecords (uploadRecords name chunks) col r hr

/-! ## Chunker helper lemmas -/

theorem pyRangeUp_length (stop step : Nat) :
    (pyRangeUp stop step).length = (stop + step - 1) / step := by
  simp [pyRangeUp]

theorem mem_pyRangeUp_lt (stop step i : Nat) (hs : 0 < step)
    (hi : i ∈ pyRangeUp stop step) : i < stop := by
  simp only [pyRangeUp, List.mem_map, List.mem_range] at hi
  obtain ⟨k, hk, rfl⟩ := hi
  have h1 : k + 1 ≤ (stop + step - 1) / step := hk
  have h4 : k * step + step ≤ stop + step - 1 := by
    calc k * step + step = (k + 1) * step := by ring
      _ ≤ ((stop + step - 1) / step) * step := Nat.mul_le_mul_right step h1
      _ ≤ stop + step - 1 := Nat.div_mul_le_self _ _
  have h5 : ∀ a : Nat, a + step ≤ stop + step - 1 → a < stop := by
    intro a ha
    omega
  exact h5 _ h4

theorem wordChunks_length (w : List String) (C O : Nat) :
    (wordChunks w C O).length = (w.length + (C - O) - 1) / (C - O) := by
  simp [wordChunks, pyRangeUp]

theorem wordChunks_get (w : List String) (C O j : Nat)
    (hj : j < (wordChunks w C O).length) :
    (wordChunks w C O).get ⟨j, hj⟩ = (w.drop (j * (C - O))).take C := by
  simp [wordChunks, pyRangeUp]

theorem wordChunks_mem (w : List String) (C O : Nat) (ws : List String)
    (hws : ws ∈ wordChunks w C O) :
    ∃ i, i ∈ pyRangeUp w.length (C - O) ∧ ws = (w.drop i).take C := by
  simp only [wordChunks, List.mem_map] at hws
  obtain ⟨i, hi, rfl⟩ := hws
  exact ⟨i, hi, rfl⟩

theorem wordChunks_ne_nil (w : List String) (C O : Nat) (hO : O < C) :
    ∀ ws ∈ wordChunks w C O, ws ≠ [] := by
  intro ws hws
  obtain ⟨i, hi, rfl⟩ := wordChunks_mem w C O ws hws
  have hd : 0 < C - O := Nat.sub_pos_of_lt hO
  have hiL : i < w.length := mem_pyRangeUp_lt _ _ _ hd hi
  intro hnil
  have hlen := congrArg List.length hnil
  simp only [List.length_take, List.length_drop, List.length_nil] at hlen
  omega

theorem wordChunks_tokens_mem (w : List String) (C O : Nat) (ws : List String)
    (hws : ws ∈ wordChunks w C O) : ∀ t ∈ ws, t ∈ w := by
  obtain ⟨i, _, rfl⟩ := wordChunks_mem w C O ws hws
  intro t ht
  exact List.mem_of_mem_drop (List.mem_of_mem_take ht)

theorem pyTokens_sound (l : List Char) :
    ∀ t ∈ pyTokens l, t ≠ [] ∧ ∀ c ∈ t, c.isWhitespace = false := by
  induction l using pyTokens.induct with
  | case1 => intro t ht; cases ht
  | case2 c h =>
    intro t ht
    simp [pyTokens, h] at ht
  | case3 c h =>
    intro t ht
    simp [pyTokens, h] at ht
    subst ht
    refine ⟨by simp, ?_⟩
    intro x hx
    simp at hx
    subst hx
    simpa using h
  | case4 c c2 cs h ih =>
    intro t ht
    simp only [pyTokens, h, if_true] at ht
    exact ih t ht
  | case5 c c2 cs h h2 ih =>
    intro t ht
    simp only [pyTokens, h, h2, if_true, if_false, Bool.false_eq_true] at ht
    rcases List.mem_cons.mp ht with he | hm
    · subst he
      refine ⟨by simp, ?_⟩
      intro x hx
      simp at hx
      subst hx
      simpa using h
    · exact ih t hm
  | case6 c c2 cs h h2 heq ih =>
    intro t ht
    simp only [pyTokens, h, h2, heq, if_true, if_false, Bool.false_eq_true] at ht
    simp at ht
    subst ht
    refine ⟨by simp, ?_⟩
    intro x hx
    simp at hx
    subst hx
    simpa using h
  | case7 c c2 cs h h2 t0 ts0 heq ih =>
    intro t ht
    simp only [pyTokens, h, h2, heq, if_true, if_false, Bool.false_eq_true] at ht
    rcases List.mem_cons.mp ht with he | hm
    · subst he
      have ht0 := ih t0 (by rw [heq]; exact List.mem_cons_self _ _)
      refine ⟨by simp, ?_⟩
      intro x hx
      rcases List.mem_cons.mp hx with hx1 | hx2
      · subst hx1
        simpa using h
      · exact ht0.2 x hx2
    · exact ih t (by rw [heq]; exact List.mem_cons_of_mem _ hm)

theorem pySplit_sound (text : String) :
    ∀ t ∈ pySplit text, t ≠ "" ∧ ∀ c ∈ t.toList, c.isWhitespace = false := by
  intro t ht
  simp only [pySplit, List.mem_map] at ht
  obtain ⟨tc, htc, rfl⟩ := ht
  have hs := pyTokens_sound text.toList tc htc
  refine ⟨?_, hs.2⟩
  intro h
  exact hs.1 (congrArg String.data h)

theorem stripChars_ne_nil (cs : List Char) (c : Char) (hc : c ∈ cs)
    (hw : c.isWhitespace = false) : stripChars cs ≠ [] := by
  intro h
  unfold stripChars at h
  rw [List.reverse_eq_nil_iff, List.dropWhile_eq_nil_iff] at h
  have hsub : ∀ a ∈ cs.dropWhile Char.isWhitespace, a.isWhitespace = true := by
    intro a ha
    exact h a (List.mem_reverse.mpr ha)
  have hc2 : c ∈ cs.takeWhile Char.isWhitespace ++ cs.dropWhile Char.isWhitespace := by
    rw [List.takeWhile_append_dropWhile]
    exact hc
  rcases List.mem_append.mp hc2 with h1 | h1
  · have h3 := List.mem_takeWhile_imp h1
    rw [hw] at h3
    cases h3
  · have h3 := hsub c h1
    rw [hw] at h3
    cases h3

theorem pyJoin_cons_toList (x : String) (xs : List String) :
    ∃ rest, (pyJoin " " (x :: xs)).toList = x.toList ++ rest := by
  cases xs with
  | nil => exact ⟨[], by simp [pyJoin]⟩
  | cons y ys =>
    refine ⟨(" " ++ pyJoin " " (y :: ys)).toList, ?_⟩
    show (x ++ " " ++ pyJoin " " (y :: ys)).toList = _
    simp only [String.toList, String.data_append, List.append_assoc]

theorem pyStrip_join_ne_empty (ws : List String) (hne : ws ≠ [])
    (htok : ∀ t ∈ ws, t ≠ "" ∧ ∀ c ∈ t.toList, c.isWhitespace = false) :
    pyStrip (pyJoin " " ws) ≠ "" := by
  cases ws with
  | nil => exact absurd rfl hne
  | cons x xs =>
    have hx := htok x (List.mem_cons_self _ _)
    have hxl : x.toList ≠ [] := by
      intro h
      exact hx.1 (String.ext h)
    obtain ⟨c, hc⟩ := List.exists_mem_of_ne_nil _ hxl
    have hcw : c.isWhitespace = false := hx.2 c hc
    obtain ⟨rest, hrest⟩ := pyJoin_cons_toList x xs
    have hcj : c ∈ (pyJoin " " (x :: xs)).toList := by
      rw [hrest]
      exact List.mem_append_left _ hc
    intro hstrip
    exact stripChars_ne_nil _ c hcj hcw (congrArg String.data hstrip)

theorem chunk_filter_id (text : String) (C O : Nat) (hO : O < C) :
    ((wordChunks (pySplit text) C O).map (fun ws => pyJoin " " ws)).filter
        (fun c => pyStrip c ≠ "")
      = (wordChunks (pySplit text) C O).map (fun ws => pyJoin " " ws) := by
  apply List.filter_eq_self.mpr
  intro a ha
  simp only [List.mem_map] at ha
  obtain ⟨ws, hws, rfl⟩ := ha
  have hne : ws ≠ [] := wordChunks_ne_nil _ C O hO ws hws
  have htok : ∀ t ∈ ws, t ≠ "" ∧ ∀ c ∈ t.toList, c.isWhitespace = false := by
    intro t ht
    exact pySplit_sound text t (wordChunks_tokens_mem _ C O ws hws t ht)
  simpa using pyStrip_join_ne_empty ws hne htok

theorem chunk_text_eq (text : String) (C O : Nat) (hO : O < C) :
    chunk_text text C O
      = Except.ok ((wordChunks (pySplit text) C O).map (fun ws => pyJoin " " ws)) := by
  have h1 : ¬(C = O) := ne_of_gt hO
  have h2 : ¬(C < O) := Nat.lt_asymm hO
  simp only [chunk_text, if_neg h1, if_neg h2]
  rw [chunk_filter_id text C O hO]

theorem window_take_drop (w : List String) (C O j : Nat) (hO : O ≤ C) :
    ((w.drop ((j + 1) * (C - O))).take C).take O
      = ((w.drop (j * (C - O))).take C).drop (C - O) := by
  rw [List.take_take, min_eq_left hO, Nat.succ_mul]
  rw [List.drop_take, Nat.sub_sub_self hO, List.drop_drop]

/-! ## Claim theorems -/

/-- Claim C1, counterexample: calling the chunker with
`overlap = 2 > 1 = chunk_size` is not rejected; the call returns normally
and emits the empty chunk list, so the configuration is accepted rather
than failing fast. -/
theorem C1_counterexample : chunk_text "a" 1 2 = Except.ok [] := by decide

/-- Claim C1, amended: when `overlap = chunk_size` the chunker raises a
`ValueError` (zero `range` step) before producing any chunk, but when
`overlap > chunk_size` it silently returns the empty chunk list instead of
rejecting the configuration; in both cases no non-empty chunk sequence is
ever emitted. -/
theorem C1_amended (text : String) (chunk_size overlap : Nat) (h : chunk_size ≤ overlap) :
    (chunk_size = overlap →
      chunk_text text chunk_size overlap
        = Except.error "ValueError: range() arg 3 must not be zero")
    ∧ (chunk_size < overlap → chunk_text text chunk_size overlap = Except.ok [])
    ∧ (∀ cs, chunk_text text chunk_size overlap = Except.ok cs → cs = []) := by
  refine ⟨?_, ?_, ?_⟩
  · intro he
    unfold chunk_text
    simp [he]
  · intro hlt
    unfold chunk_text
    simp [Nat.ne_of_lt hlt, hlt]
  · intro cs hcs
    rcases Nat.lt_or_eq_of_le h with hlt | he
    · unfold chunk_text at hcs
      simp [Nat.ne_of_lt hlt, hlt] at hcs
      exact hcs
    · unfold chunk_text at hcs
      simp [he] at hcs

/-- Witness for `C1_amended` at `chunk_size = 1`, `overlap = 2`. -/
theorem C1_witness :
    (1 ≤ 2)
    ∧ ((1 = 2 →
        chunk_text "a b" 1 2 = Except.error "ValueError: range() arg 3 must not be zero")
      ∧ (1 < 2 → chunk_text "a b" 1 2 = Except.ok [])
      ∧ (∀ cs, chunk_text "a b" 1 2 = Except.ok cs → cs = [])) :=
  ⟨by decide, C1_amended "a b" 1 2 (by decide)⟩

/-- Claim C2, confirmed: when the vector store returns zero hits, the
retriever returns the empty context and the empty source list, the turn
never invokes the answer generator (second component `false`, for every
possible completion outcome), and the history gains the fixed
no-relevant-information assistant message with an empty source list. -/
theorem C2_zero_hits (history : List Message) (prompt : String)
    (completion : Except String String) :
    retrieve_context [] = ("", [])
    ∧ chatTurn history prompt (Except.ok []) completion
        = (history
            ++ [{ role := "user", content := prompt, sources := [] },
                { role := "assistant", content := noContextMsg, sources := [] }], false) := by
  refine ⟨rfl, ?_⟩
  unfold chatTurn retrieve_context_run retrieve_context
  simp [pyJoin]

/-- Claim C3, confirmed: when the chat-completion call fails with reason
`e`, `generate_response` returns the error string embedding `e` instead of
raising, and the turn still appends the assistant message carrying that
string (with the retrieved sources) to the conversation history. -/
theorem C3_generation_error (history : List Message) (prompt e : String) (hits : List Hit)
    (h : (retrieve_context hits).1 ≠ "") :
    generate_response prompt (retrieve_context hits).1 (Except.error e)
        = "Response generation error: " ++ e
    ∧ chatTurn history prompt (Except.ok hits) (Except.error e)
        = (history
            ++ [{ role := "user", content := prompt, sources := [] },
                { role := "assistant", content := "Response generation error: " ++ e,
                  sources := (retrieve_context hits).2 }], true) := by
  refine ⟨rfl, ?_⟩
  unfold chatTurn retrieve_context_run
  simp [h, generate_response]

/-- Witness for `C3_generation_error` on a one-hit retrieval and a quota
failure. -/
theorem C3_witness :
    ((retrieve_context [⟨"t", "s"⟩]).1 ≠ "")
    ∧ chatTurn [] "q" (Except.ok [⟨"t", "s"⟩]) (Except.error "quota")
        = (([] : List Message)
            ++ [{ role := "user", content := "q", sources := [] },
                { role := "assistant", content := "Response generation error: " ++ "quota",
                  sources := (retrieve_context [⟨"t", "s"⟩]).2 }], true) :=
  ⟨by decide, (C3_generation_error [] "q" "quota" [⟨"t", "s"⟩] (by decide)).2⟩

/-- Claim C4, counterexample: an embedding-model failure during retrieval
is not propagated to the caller of the query entry point; `retrieve_context`
catches it and returns exactly the empty retrieval result, and the turn
proceeds to the fixed no-relevant-information reply. -/
theorem C4_counterexample :
    retrieve_context_run (Except.error "embedding model failure") = ("", [])
    ∧ chatTurn [] "q" (Except.error "embedding model failure") (Except.ok "answer")
        = ([{ role := "user", content := "q", sources := [] },
            { role := "assistant", content := noContextMsg, sources := [] }], false) := by
  decide

/-- Claim C4, amended: every query-time error raised before generation is
caught inside `retrieve_context`, which returns the empty context and empty
source list; the turn then produces the fixed no-relevant-information reply
without invoking the generator, so the error is degraded rather than fatal
for the query. -/
theorem C4_amended (e : String) (history : List Message) (prompt : String)
    (completion : Except String String) :
    retrieve_context_run (Except.error e) = ("", [])
    ∧ chatTurn history prompt (Except.error e) completion
        = (history
            ++ [{ role := "user", content := prompt, sources := [] },
                { role := "assistant", content := noContextMsg, sources := [] }], false) := by
  refine ⟨rfl, ?_⟩
  unfold chatTurn retrieve_context_run
  simp

/-- Claim C7, confirmed: on the at-most-`k` hits returned by the vector
store in descending-similarity order, the retriever returns their texts
joined with a blank-line separator in that order, together with a
duplicate-free listing of exactly the set of source names of those hits. -/
theorem C7_retrieve (hits : List Hit) (k : Nat) (hk : hits.length ≤ k) :
    (retrieve_context hits).1 = pyJoin "\n\n" (hits.map (fun h => h.doc))
    ∧ (hits.map (fun h => h.doc)).length ≤ k
    ∧ (retrieve_context hits).2.Nodup
    ∧ (retrieve_context hits).2.toFinset = (hits.map (fun h => h.source)).toFinset := by
  refine ⟨rfl, by simpa using hk, ?_, ?_⟩
  · exact List.nodup_dedup _
  · ext a
    simp [retrieve_context, List.mem_toFinset, List.mem_dedup]

/-- Witness for `C7_retrieve` on two hits from the same source plus one
from another, with `k = 3`. -/
theorem C7_witness :
    (([⟨"t1", "s"⟩, ⟨"t2", "s"⟩, ⟨"t3", "u"⟩] : List Hit).length ≤ 3)
    ∧ ((retrieve_context [⟨"t1", "s"⟩, ⟨"t2", "s"⟩, ⟨"t3", "u"⟩]).1
          = pyJoin "\n\n" (([⟨"t1", "s"⟩, ⟨"t2", "s"⟩, ⟨"t3", "u"⟩] : List Hit).map
              (fun h => h.doc))
      ∧ (([⟨"t1", "s"⟩, ⟨"t2", "s"⟩, ⟨"t3", "u"⟩] : List Hit).map (fun h => h.doc)).length ≤ 3
      ∧ (retrieve_context [⟨"t1", "s"⟩, ⟨"t2", "s"⟩, ⟨"t3", "u"⟩]).2.Nodup
      ∧ (retrieve_context [⟨"t1", "s"⟩, ⟨"t2", "s"⟩, ⟨"t3", "u"⟩]).2.toFinset
          = (([⟨"t1", "s"⟩, ⟨"t2", "s"⟩, ⟨"t3", "u"⟩] : List Hit).map
              (fun h => h.source)).toFinset) :=
  ⟨by decide, C7_retrieve [⟨"t1", "s"⟩, ⟨"t2", "s"⟩, ⟨"t3", "u"⟩] 3 (by decide)⟩

/-- Claim C8, confirmed: an unreadable or corrupt file makes text
extraction return the empty string instead of raising (for the PDF reader
and the OCR path alike), and the batch ingestion walk contributes no
records for that file while processing the remaining files exactly as if
the corrupt file were absent. -/
theorem C8_corrupt_file (pre post : List SrcFile) (name e : String) :
    extract_text_from_pdf (Except.error e) = ""
    ∧ extract_text_from_image (Except.error e) = ""
    ∧ processFile (SrcFile.pdf name (Except.error e)) = []
    ∧ processFile (SrcFile.image name (Except.error e)) = []
    ∧ process_documents (pre ++ SrcFile.pdf name (Except.error e) :: post)
        = process_documents (pre ++ post) := by
  refine ⟨rfl, rfl, rfl, rfl, ?_⟩
  unfold process_documents
  simp [processFile, extractText, extract_text_from_pdf]

/-- Claim C10, confirmed: on every invocation of the upload path in which
`tmp_file_path` is assigned, the temporary file is unlinked before the
function returns — on the success path, the unsupported-file-type path, and
both exception paths alike. -/
theorem C10_tmpfile (kind : UploadKind) (run : UploadRun)
    (h : (process_uploaded_file kind run).assigned = true) :
    (process_uploaded_file kind run).tmpExists = false := by
  rcases run with ⟨w, l, a⟩
  cases w <;> cases kind <;> cases l <;> cases a <;> simp_all [process_uploaded_file]

/-- Witness for `C10_tmpfile` on a successful PDF upload. -/
theorem C10_witness :
    ((process_uploaded_file UploadKind.pdf ⟨true, true, true⟩).assigned = true)
    ∧ (process_uploaded_file UploadKind.pdf ⟨true, true, true⟩).tmpExists = false :=
  ⟨by decide, C10_tmpfile UploadKind.pdf ⟨true, true, true⟩ (by decide)⟩

/-- Claim C5, counterexample: uploading the same one-chunk document twice
through the single-file upload path leaves one record attributable to it,
not two — the deterministic ids `name_i` collide and the backend upserts,
so the count does not double. -/
theorem C5_counterexample :
    countSource (ingestUpload (ingestUpload [] "a.txt" ["x"]) "a.txt" ["x"]) "a.txt" = 1
    ∧ countSource (ingestUpload [] "a.txt" ["x"]) "a.txt" = 1 := by
  decide

/-- Claim C5, amended: ingesting a document twice without a reset doubles
the records attributable to it on the batch ingestion path, whose ids are
fresh `uuid4` values; the single-file upload path instead reuses the
deterministic ids `name_i`, so the second upload collides on every id, is
upserted by the backend, and leaves the total record count exactly as after
the first upload. -/
theorem C5_amended (col : List VRecord) (name : String) (chunks ids1 ids2 : List String)
    (h1 : ids1.length = chunks.length) (h2 : ids2.length = chunks.length)
    (hn : (ids1 ++ ids2).Nodup)
    (hf : ∀ i ∈ ids1 ++ ids2, i ∉ col.map VRecord.id) :
    countSource (ingestBatch (ingestBatch col name chunks ids1) name chunks ids2) name
        = countSource col name + 2 * chunks.length
    ∧ (ingestUpload (ingestUpload col name chunks) name chunks).length
        = (ingestUpload col name chunks).length := by
  constructor
  · have hid1 : (batchRecords name chunks ids1).map VRecord.id = ids1 :=
      batchRecords_ids name chunks ids1 h1
    have hid2 : (batchRecords name chunks ids2).map VRecord.id = ids2 :=
      batchRecords_ids name chunks ids2 h2
    have hsplit := List.nodup_append.mp hn
    have e1 : ingestBatch col name chunks ids1 = col ++ batchRecords name chunks ids1 := by
      apply addRecords_fresh
      · rw [hid1]
        exact hsplit.1
      · rw [hid1]
        intro i hi
        exact hf i (List.mem_append_left _ hi)
    have e2 : ingestBatch (col ++ batchRecords name chunks ids1) name chunks ids2
        = (col ++ batchRecords name chunks ids1) ++ batchRecords name chunks ids2 := by
      apply addRecords_fresh
      · rw [hid2]
        exact hsplit.2.1
      · rw [hid2]
        intro i hi
        rw [List.map_append, hid1]
        intro hmem
        rcases List.mem_append.mp hmem with hh | hh
        · exact hf i (List.mem_append_right _ hi) hh
        · exact hsplit.2.2 hh hi
    rw [e1, e2, countSource_append, countSource_append,
      countSource_batchRecords name chunks ids1 h1,
      countSource_batchRecords name chunks ids2 h2]
    ring
  · exact ingestUpload_twice_length col name chunks

/-- Witness for `C5_amended` on an empty collection, one chunk, and two
fresh batch ids. -/
theorem C5_witness :
    ((["id1"] : List String).length = (["x"] : List String).length
      ∧ (["id2"] : List String).length = (["x"] : List String).length
      ∧ ((["id1"] : List String) ++ ["id2"]).Nodup
      ∧ ∀ i ∈ (["id1"] : List String) ++ ["id2"], i ∉ ([] : List VRecord).map VRecord.id)
    ∧ (countSource (ingestBatch (ingestBatch [] "a.txt" ["x"] ["id1"]) "a.txt" ["x"] ["id2"])
          "a.txt"
        = countSource ([] : List VRecord) "a.txt" + 2 * (["x"] : List String).length
      ∧ (ingestUpload (ingestUpload [] "a.txt" ["x"]) "a.txt" ["x"]).length
        = (ingestUpload [] "a.txt" ["x"]).length) :=
  ⟨⟨by decide, by decide, by decide, by decide⟩,
   C5_amended [] "a.txt" ["x"] ["id1"] ["id2"] (by decide) (by decide) (by decide) (by decide)⟩

/-- Claim C9, confirmed: on an input with no word tokens (the empty string
or any whitespace-only string) and a valid configuration, the chunker
returns the empty chunk list and raises no error. -/
theorem C9_empty_input (text : String) (chunk_size overlap : Nat)
    (hO : overlap < chunk_size) (hw : pySplit text = []) :
    chunk_text text chunk_size overlap = Except.ok [] := by
  have h0 : (chunk_size - overlap - 1) / (chunk_size - overlap) = 0 :=
    Nat.div_eq_of_lt (by omega)
  simp [chunk_text, wordChunks, pyRangeUp, hw, ne_of_gt hO, Nat.lt_asymm hO, h0]

/-- Witness for `C9_empty_input` on the empty string and a whitespace-only
string at the default configuration. -/
theorem C9_witness :
    ((50 < 500 ∧ pySplit "" = []) ∧ chunk_text "" 500 50 = Except.ok [])
    ∧ ((50 < 500 ∧ pySplit " " = []) ∧ chunk_text " " 500 50 = Except.ok []) :=
  ⟨⟨⟨by decide, by decide⟩, C9_empty_input "" 500 50 (by decide) (by decide)⟩,
   ⟨⟨by decide, by decide⟩, C9_empty_input " " 500 50 (by decide) (by decide)⟩⟩

/-- Claim C6, counterexample: for the four-word text with `chunk_size = 3`
and `overlap = 2` the chunker emits four chunks, and the final chunk is the
single word `d`, which cannot share exactly `2` words with its predecessor
`c d` — it has only one word. -/
theorem C6_counterexample :
    chunk_text "a b c d" 3 2 = Except.ok ["a b c", "b c d", "c d", "d"]
    ∧ wordChunks (pySplit "a b c d") 3 2
        = [["a", "b", "c"], ["b", "c", "d"], ["c", "d"], ["d"]]
    ∧ ¬ sharesExactlyWords ["c", "d"] ["d"] 2 := by
  refine ⟨by decide, by decide, ?_⟩
  intro h
  exact absurd h.1 (by decide)

/-- Claim C6, amended: for `overlap < chunk_size` the chunker returns, in
document order, the space-joined word windows starting at the multiples of
`chunk_size - overlap`; the number of chunks is exactly
`ceil(L / (chunk_size - overlap))` where `L` is the word count; every chunk
has at most `chunk_size` words; and each chunk after the first begins with
the words of its predecessor from position `chunk_size - overlap` on — a
shared run of exactly `min overlap (length of that chunk)` words, hence
exactly `overlap` words whenever the chunk has at least `overlap` words. -/
theorem C6_amended (text : String) (chunk_size overlap : Nat)
    (hO : overlap < chunk_size) :
    chunk_text text chunk_size overlap
        = Except.ok ((wordChunks (pySplit text) chunk_size overlap).map
            (fun ws => pyJoin " " ws))
    ∧ (wordChunks (pySplit text) chunk_size overlap).length
        = ((pySplit text).length + (chunk_size - overlap) - 1) / (chunk_size - overlap)
    ∧ (∀ j, ∀ hj : j < (wordChunks (pySplit text) chunk_size overlap).length,
        (wordChunks (pySplit text) chunk_size overlap).get ⟨j, hj⟩
          = ((pySplit text).drop (j * (chunk_size - overlap))).take chunk_size)
    ∧ (∀ j, ∀ hj : j < (wordChunks (pySplit text) chunk_size overlap).length,
        ((wordChunks (pySplit text) chunk_size overlap).get ⟨j, hj⟩).length ≤ chunk_size)
    ∧ (∀ j, ∀ hj : j + 1 < (wordChunks (pySplit text) chunk_size overlap).length,
        ((wordChunks (pySplit text) chunk_size overlap).get ⟨j + 1, hj⟩).take overlap
          = ((wordChunks (pySplit text) chunk_size overlap).get
              ⟨j, Nat.lt_of_succ_lt hj⟩).drop (chunk_size - overlap)
        ∧ (((wordChunks (pySplit text) chunk_size overlap).get
              ⟨j + 1, hj⟩).take overlap).length
          = min overlap
              ((wordChunks (pySplit text) chunk_size overlap).get ⟨j + 1, hj⟩).length) := by
  refine ⟨chunk_text_eq text _ _ hO, wordChunks_length _ _ _, ?_, ?_, ?_⟩
  · intro j hj
    exact wordChunks_get _ _ _ j hj
  · intro j hj
    rw [wordChunks_get _ _ _ j hj]
    simp [List.length_take]
  · intro j hj
    constructor
    · rw [wordChunks_get _ _ _ (j + 1) hj,
        wordChunks_get _ _ _ j (Nat.lt_of_succ_lt hj)]
      exact window_take_drop (pySplit text) chunk_size overlap j (le_of_lt hO)
    · simp [List.length_take]

/-- Witness for `C6_amended` on the text `a b c` with `chunk_size = 2`,
`overlap = 1`. -/
theorem C6_witness :
    (1 < 2)
    ∧ (chunk_text "a b c" 2 1
          = Except.ok ((wordChunks (pySplit "a b c") 2 1).map (fun ws => pyJoin " " ws))
      ∧ (wordChunks (pySplit "a b c") 2 1).length
          = ((pySplit "a b c").length + (2 - 1) - 1) / (2 - 1)
      ∧ (∀ j, ∀ hj : j < (wordChunks (pySplit "a b c") 2 1).length,
          (wordChunks (pySplit "a b c") 2 1).get ⟨j, hj⟩
            = ((pySplit "a b c").drop (j * (2 - 1))).take 2)
      ∧ (∀ j, ∀ hj : j < (wordChunks (pySplit "a b c") 2 1).length,
          ((wordChunks (pySplit "a b c") 2 1).get ⟨j, hj⟩).length ≤ 2)
      ∧ (∀ j, ∀ hj : j + 1 < (wordChunks (pySplit "a b c") 2 1).length,
          ((wordChunks (pySplit "a b c") 2 1).get ⟨j + 1, hj⟩).take 1
            = ((wordChunks (pySplit "a b c") 2 1).get
                ⟨j, Nat.lt_of_succ_lt hj⟩).drop (2 - 1)
          ∧ (((wordChunks (pySplit "a b c") 2 1).get ⟨j + 1, hj⟩).take 1).length
            = min 1 ((wordChunks (pySplit "a b c") 2 1).get ⟨j + 1, hj⟩).length)) :=
  ⟨by decide, C6_amended "a b c" 2 1 (by decide)⟩
